import Mathlib

/-
Verification development for an editor-embedded pull-request client.

The subject program is a TypeScript extension whose core pieces are:
  - a line-oriented diff engine (generateDiff in azureDevOpsClient.ts),
  - a per-file diff fetcher (getFileDiff in azureDevOpsClient.ts),
  - a comment-thread model (createCommentThread, replyToThread,
    mapCommentThread in azureDevOpsClient.ts; the createComment,
    replyComment and updateCommentStatus message handlers plus
    getGeneralThreads in pullRequestWebview.ts),
  - a side-by-side row layout (generateSideBySideRows and
    flushSideBySideChanges in pullRequestProvider.ts).

Each definition below is a direct translation of the corresponding
source function.  JavaScript-specific semantics are preserved:
  - String.prototype.split with separator "\n" yields [""] on the empty
    string (never an empty array); splitLines below reproduces this;
  - null / undefined field values are rendered as Option.none;
  - falsy coercions such as (x || fallback) on numbers treat 0 as falsy
    and on strings treat "" as falsy; this is modelled where the source
    relies on it.
-/

/-! ## Diff engine (generateDiff, azureDevOpsClient.ts) -/

/-- Model of JavaScript String.prototype.split applied to one character,
restricted to the newline separator, over the character list.  Splitting
the empty list yields one empty chunk, exactly as in JavaScript. -/
def splitLinesChars : List Char → List (List Char)
  | [] => [[]]
  | c :: cs =>
    if c = '\n' then [] :: splitLinesChars cs
    else
      match splitLinesChars cs with
      | t :: ts => (c :: t) :: ts
      | [] => [[c]]

/-- Model of the source expression content.split(String.fromCharCode 10):
split a text into its lines.  splitLines "" = [""]. -/
def splitLines (s : String) : List String :=
  (splitLinesChars s.data).map (fun cs => String.mk cs)

/-- DiffLine record produced by the diff engine: rendered text,
classification string, optional original-side and modified-side
1-based line numbers. -/
structure DiffLine where
  line : String
  lineType : String
  oLine : Option Nat := none
  mLine : Option Nat := none
deriving Repr, DecidableEq

/-- Body of one iteration of the generateDiff loop at walk index i.
Matches the source: identical present lines emit one unchanged record
when i is inside the first-3 or last-3 context window; otherwise a
present base line emits a deleted record and a present target line an
added record (the deleted record is pushed first). -/
def diffAt (baseLines targetLines : List String) (maxLines i : Nat) : List DiffLine :=
  match baseLines[i]?, targetLines[i]? with
  | some bl, some tl =>
    if bl = tl then
      if i < 3 ∨ maxLines - 3 ≤ i then
        [{ line := bl, lineType := "unchanged", oLine := some (i + 1), mLine := some (i + 1) }]
      else []
    else
      [{ line := bl, lineType := "deleted", oLine := some (i + 1) },
       { line := tl, lineType := "added", mLine := some (i + 1) }]
  | some bl, none => [{ line := bl, lineType := "deleted", oLine := some (i + 1) }]
  | none, some tl => [{ line := tl, lineType := "added", mLine := some (i + 1) }]
  | none, none => []

/-- generateDiff from azureDevOpsClient.ts: split both contents on
newline and walk both line lists in lock step up to the longer length,
emitting DiffLine records per index as in diffAt. -/
def generateDiff (baseContent targetContent : String) : List DiffLine :=
  let baseLines := splitLines baseContent
  let targetLines := splitLines targetContent
  let maxLines := max baseLines.length targetLines.length
  (List.range maxLines).flatMap (diffAt baseLines targetLines maxLines)

/-! ## Per-file diff fetch (getFileDiff, azureDevOpsClient.ts) -/

/-- DiffBlock record as built by getFileDiff. -/
structure DiffBlock where
  changeType : String
  mLine : Nat
  mLinesCount : Nat
  oLine : Nat
  oLinesCount : Nat
  lines : List DiffLine
deriving Repr, DecidableEq

/-- FileDiff record returned by getFileDiff. -/
structure FileDiff where
  path : String
  changeType : String
  originalContent : String
  modifiedContent : String
  blocks : List DiffBlock
deriving Repr, DecidableEq

/-- getFileDiff from azureDevOpsClient.ts.  The two remote content
fetches are passed in as oracles (Except values: ok carries the fetched
content, error a failure).  The base-side fetch is consulted only when
changeType is not add, the target-side fetch only when changeType is
not delete, mirroring the two guarded try blocks in the source; a
failed fetch is caught and the content defaulted to the empty string.
The second component records which sides were actually fetched, in
source order, so that skipped fetches are observable. -/
def getFileDiff (filePath changeType : String)
    (fetchBase fetchTarget : Except String String) : FileDiff × List String :=
  let basePair :=
    if changeType ≠ "add" then
      (match fetchBase with
       | Except.ok s => s
       | Except.error _ => "", ["base"])
    else ("", [])
  let targetPair :=
    if changeType ≠ "delete" then
      (match fetchTarget with
       | Except.ok s => s
       | Except.error _ => "", ["target"])
    else ("", [])
  let baseContent := basePair.1
  let targetContent := targetPair.1
  let diffLines := generateDiff baseContent targetContent
  let blocks : List DiffBlock :=
    if diffLines.length > 0 then
      [{ changeType := changeType
         mLine := 0
         mLinesCount := diffLines.countP (fun l => l.lineType == "added")
         oLine := 0
         oLinesCount := diffLines.countP (fun l => l.lineType == "deleted")
         lines := diffLines }]
    else []
  ({ path := filePath
     changeType := changeType
     originalContent := baseContent
     modifiedContent := targetContent
     blocks := blocks },
   basePair.2 ++ targetPair.2)

/-! ## Side-by-side layout (pullRequestProvider.ts) -/

/-- One rendered side-by-side row.  A line-number cell rendered as the
empty string in the source (null line or falsy number) is none here. -/
structure SideRow where
  leftNumber : Option Nat
  leftContent : String
  leftType : String
  rightNumber : Option Nat
  rightContent : String
  rightType : String
deriving Repr, DecidableEq

/-- JavaScript falsy coercion (n || empty) on an optional number:
undefined and 0 both render as the empty cell. -/
def jsNumberOrEmpty (o : Option Nat) : Option Nat :=
  match o with
  | some 0 => none
  | some k => some k
  | none => none

/-- flushSideBySideChanges from pullRequestProvider.ts: zip a pending
run of deleted lines with a pending run of added lines into
max-length many rows, padding the exhausted side with empty cells. -/
def flushSideBySideChanges (leftLines rightLines : List DiffLine) : List SideRow :=
  (List.range (max leftLines.length rightLines.length)).map fun i =>
    let leftLine := leftLines[i]?
    let rightLine := rightLines[i]?
    { leftNumber := jsNumberOrEmpty (leftLine.bind (fun l => l.oLine))
      leftContent := (leftLine.map (fun l => l.line)).getD ""
      leftType := if leftLine.isSome then "deleted" else "empty"
      rightNumber := jsNumberOrEmpty (rightLine.bind (fun l => l.mLine))
      rightContent := (rightLine.map (fun l => l.line)).getD ""
      rightType := if rightLine.isSome then "added" else "empty" }

/-- Loop body of generateSideBySideRows: accumulate deleted lines into
the left run and added lines into the right run; an unchanged line
flushes both runs and then emits its own two-sided row; any other
classification is skipped, as in the if-else chain of the source. -/
def generateSideBySideRowsGo : List DiffLine → List DiffLine → List DiffLine → List SideRow
  | [], leftLines, rightLines => flushSideBySideChanges leftLines rightLines
  | l :: ls, leftLines, rightLines =>
    if l.lineType = "deleted" then
      generateSideBySideRowsGo ls (leftLines ++ [l]) rightLines
    else if l.lineType = "added" then
      generateSideBySideRowsGo ls leftLines (rightLines ++ [l])
    else if l.lineType = "unchanged" then
      flushSideBySideChanges leftLines rightLines ++
      [{ leftNumber := l.oLine
         leftContent := l.line
         leftType := "unchanged"
         rightNumber := l.mLine
         rightContent := l.line
         rightType := "unchanged" }] ++
      generateSideBySideRowsGo ls [] []
    else
      generateSideBySideRowsGo ls leftLines rightLines

/-- generateSideBySideRows from pullRequestProvider.ts. -/
def generateSideBySideRows (lines : List DiffLine) : List SideRow :=
  generateSideBySideRowsGo lines [] []

/-! ## Comment-thread model (azureDevOpsClient.ts, pullRequestWebview.ts) -/

/-- Raw API comment type enumeration (azure-devops-node-api
CommentType); unknownType stands for every enum member outside the
three the mapper names. -/
inductive ApiCommentType
  | text
  | codeChange
  | system
  | unknownType
deriving Repr, DecidableEq

/-- Raw API thread status enumeration (azure-devops-node-api
CommentThreadStatus); notSet stands for every enum member outside the
six the mapper names. -/
inductive ApiThreadStatus
  | active
  | fixed
  | wontFix
  | closed
  | byDesign
  | pending
  | notSet
deriving Repr, DecidableEq

/-- Raw identity reference on an API comment. -/
structure ApiIdentity where
  displayName : Option String := none
  uniqueName : Option String := none
deriving Repr, DecidableEq

/-- Raw position inside an API thread context; fields may be null. -/
structure ApiCommentPosition where
  line : Option Nat := none
  offset : Option Nat := none
deriving Repr, DecidableEq

/-- Raw thread context on an API thread; fields may be null. -/
structure ApiThreadContext where
  filePath : Option String := none
  rightFileStart : Option ApiCommentPosition := none
  rightFileEnd : Option ApiCommentPosition := none
  leftFileStart : Option ApiCommentPosition := none
  leftFileEnd : Option ApiCommentPosition := none
deriving Repr, DecidableEq

/-- Raw API comment; dates are modelled as their ISO renderings. -/
structure ApiComment where
  id : Option Nat := none
  content : Option String := none
  author : Option ApiIdentity := none
  publishedDate : Option String := none
  lastUpdatedDate : Option String := none
  isDeleted : Option Bool := none
  commentType : Option ApiCommentType := none
deriving Repr, DecidableEq

/-- Raw API comment thread as sent to and received from the remote. -/
structure ApiCommentThread where
  id : Option Nat := none
  status : Option ApiThreadStatus := none
  comments : Option (List ApiComment) := none
  threadContext : Option ApiThreadContext := none
  isDeleted : Option Bool := none
  publishedDate : Option String := none
  lastUpdatedDate : Option String := none
deriving Repr, DecidableEq

/-- Mapped identity as produced by mapComment. -/
structure Identity where
  displayName : String
  uniqueName : String
deriving Repr, DecidableEq

/-- Mapped comment (PRComment interface). -/
structure PRComment where
  id : Nat
  content : String
  author : Identity
  publishedDate : String
  lastUpdatedDate : String
  isDeleted : Bool
  commentType : String
deriving Repr, DecidableEq

/-- Mapped position (line and offset defaulted to 0 when null). -/
structure CommentPosition where
  line : Nat
  offset : Nat
deriving Repr, DecidableEq

/-- Mapped thread context (filePath defaulted to the empty string). -/
structure ThreadContext where
  filePath : String
  rightFileStart : Option CommentPosition
  rightFileEnd : Option CommentPosition
  leftFileStart : Option CommentPosition
  leftFileEnd : Option CommentPosition
deriving Repr, DecidableEq

/-- Mapped comment thread (CommentThread interface). -/
structure CommentThread where
  id : Nat
  status : String
  comments : List PRComment
  threadContext : Option ThreadContext
  isDeleted : Bool
  publishedDate : String
  lastUpdatedDate : String
deriving Repr, DecidableEq

/-- mapThreadStatus from azureDevOpsClient.ts: enum to string, default
unknown. -/
def mapThreadStatus (status : Option ApiThreadStatus) : String :=
  match status with
  | some ApiThreadStatus.active => "active"
  | some ApiThreadStatus.fixed => "fixed"
  | some ApiThreadStatus.wontFix => "wontFix"
  | some ApiThreadStatus.closed => "closed"
  | some ApiThreadStatus.byDesign => "byDesign"
  | some ApiThreadStatus.pending => "pending"
  | _ => "unknown"

/-- mapCommentType from azureDevOpsClient.ts: enum to string, default
unknown. -/
def mapCommentType (t : Option ApiCommentType) : String :=
  match t with
  | some ApiCommentType.text => "text"
  | some ApiCommentType.codeChange => "codeChange"
  | some ApiCommentType.system => "system"
  | _ => "unknown"

/-- mapComment from azureDevOpsClient.ts: null fields defaulted. -/
def mapComment (c : ApiComment) : PRComment :=
  { id := c.id.getD 0
    content := c.content.getD ""
    author :=
      { displayName := (c.author.bind (fun a => a.displayName)).getD ""
        uniqueName := (c.author.bind (fun a => a.uniqueName)).getD "" }
    publishedDate := c.publishedDate.getD ""
    lastUpdatedDate := c.lastUpdatedDate.getD ""
    isDeleted := c.isDeleted.getD false
    commentType := mapCommentType c.commentType }

/-- Position mapping inside mapCommentThread (line and offset default
to 0). -/
def mapPosition (p : ApiCommentPosition) : CommentPosition :=
  { line := p.line.getD 0, offset := p.offset.getD 0 }

/-- mapCommentThread from azureDevOpsClient.ts.  Note that a present
threadContext object is mapped even when all of its fields are null,
because a JavaScript object is truthy regardless of its contents. -/
def mapCommentThread (thread : ApiCommentThread) : CommentThread :=
  { id := thread.id.getD 0
    status := mapThreadStatus thread.status
    comments := (thread.comments.getD []).map mapComment
    threadContext := thread.threadContext.map (fun tc =>
      { filePath := tc.filePath.getD ""
        rightFileStart := tc.rightFileStart.map mapPosition
        rightFileEnd := tc.rightFileEnd.map mapPosition
        leftFileStart := tc.leftFileStart.map mapPosition
        leftFileEnd := tc.leftFileEnd.map mapPosition })
    isDeleted := thread.isDeleted.getD false
    publishedDate := thread.publishedDate.getD ""
    lastUpdatedDate := thread.lastUpdatedDate.getD "" }

/-- Request thread built by createCommentThread in azureDevOpsClient.ts.
The webview handler forwards message.filePath, message.line and
message.side unchecked, so all three may be null at run time (the
general-comment submission sends null for each); Option models that.
The source builds a threadContext unconditionally: a right side selects
the right-file range, any other side value (left or null) selects the
left-file range. -/
def createCommentThreadRequest (content : String) (filePath : Option String)
    (line : Option Nat) (side : Option String) : ApiCommentThread :=
  let threadContext : ApiThreadContext :=
    if side = some "right" then
      { filePath := filePath
        rightFileStart := some { line := line, offset := some 1 }
        rightFileEnd := some { line := line, offset := some 1 } }
    else
      { filePath := filePath
        leftFileStart := some { line := line, offset := some 1 }
        leftFileEnd := some { line := line, offset := some 1 } }
  { comments := some [{ content := some content, commentType := some ApiCommentType.text }]
    status := some ApiThreadStatus.active
    threadContext := some threadContext }

/-- createCommentThread composed with a remote that echoes the request
back with a fresh id (the client maps whatever the remote returns
through mapCommentThread; an echoing remote exposes exactly the
contribution of the client code itself). -/
def createCommentThreadEcho (newId : Nat) (content : String) (filePath : Option String)
    (line : Option Nat) (side : Option String) : CommentThread :=
  mapCommentThread
    { createCommentThreadRequest content filePath line side with id := some newId }

/-- getGeneralThreads from the webview script in pullRequestWebview.ts:
keep threads with no threadContext, not deleted, having at least one
comment that is not deleted and not system-typed. -/
def getGeneralThreads (allThreads : List CommentThread) : List CommentThread :=
  allThreads.filter fun t =>
    t.threadContext.isNone && !t.isDeleted &&
      t.comments.any (fun c => !c.isDeleted && c.commentType != "system")

/-- Concrete thread used to probe the general-comments filter: no
threadContext, not deleted, and one text comment that is itself
deleted. -/
def generalProbeThread : CommentThread :=
  { id := 1
    status := "active"
    comments := [{ id := 1, content := "looks fine",
                   author := { displayName := "", uniqueName := "" },
                   publishedDate := "", lastUpdatedDate := "", isDeleted := true,
                   commentType := "text" }]
    threadContext := none
    isDeleted := false
    publishedDate := ""
    lastUpdatedDate := "" }

/-! ## Webview success handlers (pullRequestWebview.ts) -/

/-- Messages the extension posts back to the webview on the success
paths modelled here. -/
inductive WebviewMessage
  | replyCreated (threadId : Nat) (comment : PRComment)
  | statusUpdated (threadId : Nat) (status : String)
deriving Repr, DecidableEq

/-- Array.prototype.find followed by in-place mutation of the found
element: update the first thread whose id matches, leave the rest
untouched; no match leaves the list unchanged. -/
def updateFirstById (threads : List CommentThread) (threadId : Nat)
    (f : CommentThread → CommentThread) : List CommentThread :=
  match threads with
  | [] => []
  | t :: ts =>
    if t.id = threadId then f t :: ts
    else t :: updateFirstById ts threadId f

/-- Success path of the replyComment handler in pullRequestWebview.ts:
the remote reply has succeeded and produced the mapped comment; the
handler pushes it onto the first locally stored thread with the given
id (if any) and always posts a replyCreated message carrying the
comment. -/
def applyReplySuccess (threads : List CommentThread) (threadId : Nat)
    (reply : PRComment) : List CommentThread × WebviewMessage :=
  (updateFirstById threads threadId (fun t => { t with comments := t.comments ++ [reply] }),
   WebviewMessage.replyCreated threadId reply)

/-- Modelled from the spec: the Remote Client operation
updateCommentThreadStatus(id, threadId, status).  It is listed in the
spec interface section and invoked at pullRequestWebview.ts line 162,
but its definition is not among the provided sources; per the spec it
performs the remote status change and resolves to the updated thread,
whose status is the requested one. -/
def updateCommentThreadStatusModel (threadId : Nat) (status : String) : CommentThread :=
  { id := threadId
    status := status
    comments := []
    threadContext := none
    isDeleted := false
    publishedDate := ""
    lastUpdatedDate := "" }

/-- Success path of the updateCommentStatus handler in
pullRequestWebview.ts: the remote call resolves to the updated thread;
the handler copies its status onto the first locally stored thread with
the given id and posts a statusUpdated message. -/
def applyUpdateCommentStatus (threads : List CommentThread) (threadId : Nat)
    (status : String) : List CommentThread × WebviewMessage :=
  let updatedThread := updateCommentThreadStatusModel threadId status
  (updateFirstById threads threadId (fun t => { t with status := updatedThread.status }),
   WebviewMessage.statusUpdated threadId updatedThread.status)

/-! ## Helper lemmas -/

lemma flatMap_eq_filterMap {α β : Type} (l : List α) (f : α → List β) (g : α → Option β)
    (h : ∀ a ∈ l, f a = (g a).toList) : l.flatMap f = l.filterMap g := by
  induction l with
  | nil => rfl
  | cons a as ih =>
    rw [List.flatMap_cons, List.filterMap_cons, h a (List.mem_cons_self a as),
      ih (fun x hx => h x (List.mem_cons_of_mem a hx))]
    cases g a <;> rfl

lemma countP_flatMap {α β : Type} (p : β → Bool) (l : List α) (f : α → List β) :
    (l.flatMap f).countP p = (l.map fun a => (f a).countP p).sum := by
  induction l with
  | nil => rfl
  | cons a as ih => simp [List.countP_append, ih]

lemma filterMap_flatMap {α β γ : Type} (l : List α) (f : α → List β) (g : β → Option γ) :
    (l.flatMap f).filterMap g = l.flatMap fun a => (f a).filterMap g := by
  induction l with
  | nil => rfl
  | cons a as ih => simp [List.filterMap_append, ih]

lemma sum_indicator_range (m k : Nat) :
    ((List.range k).map fun i => if i < m then 1 else 0).sum = min m k := by
  induction k with
  | zero => simp
  | succ k ih =>
    rw [List.range_succ, List.map_append, List.sum_append, ih]
    by_cases h : k < m <;> simp [h] <;> omega

/-! ## Claim C1 -/

/-- C1 counterexample: the claim states that diffLines on two empty
texts returns an empty sequence and that diffLines "a\nb" "" returns
two deleted entries and no added entries.  Both parts are false in the
code: splitting an empty text yields one empty line, so the first call
returns one unchanged entry and the second call also emits one added
entry for the empty modified line. -/
theorem c1_empty_inputs_counterexample :
    generateDiff "" "" ≠ [] ∧
    (generateDiff "a\nb" "").countP (fun l => l.lineType == "added") ≠ 0 := by
  decide

/-- C1 amended: splitting yields one empty line for the empty text, so
generateDiff on two empty texts returns a single unchanged entry (the
empty line, both numbers 1), and generateDiff "a\nb" "" returns two
deleted entries (a at original line 1, b at original line 2) together
with one added entry (the empty modified line 1). -/
theorem c1_empty_inputs_amended :
    generateDiff "" "" =
      [{ line := "", lineType := "unchanged", oLine := some 1, mLine := some 1 }] ∧
    generateDiff "a\nb" "" =
      [{ line := "a", lineType := "deleted", oLine := some 1 },
       { line := "", lineType := "added", mLine := some 1 },
       { line := "b", lineType := "deleted", oLine := some 2 }] := by
  decide

/-! ## Claim C2 -/

/-- C2: evaluation of the comment-thread create operation.  The
anchored cases behave as the claim states: side right yields a
right-file range [line, line], side left a left-file range, status
active, and one comment with the given content.  The failing part is
the general comment: the webview submits filePath, line and side as
null, yet createCommentThread unconditionally builds a (left-sided)
threadContext, so the created thread at the failing input has
threadContext present (empty filePath, left range at line 0) rather
than absent, and getGeneralThreads consequently excludes it. -/
theorem c2_create_thread_eval :
    (createCommentThreadEcho 7 "LGTM" none none none).status = "active" ∧
    ((createCommentThreadEcho 7 "LGTM" none none none).comments.map fun c => c.content)
        = ["LGTM"] ∧
    (createCommentThreadEcho 7 "LGTM" none none none).threadContext =
      some { filePath := "", rightFileStart := none, rightFileEnd := none,
             leftFileStart := some { line := 0, offset := 1 },
             leftFileEnd := some { line := 0, offset := 1 } } ∧
    getGeneralThreads [createCommentThreadEcho 7 "LGTM" none none none] = [] ∧
    (∀ newId content filePath ln,
      (createCommentThreadEcho newId content (some filePath) (some ln) (some "right")).status
          = "active" ∧
      ((createCommentThreadEcho newId content (some filePath) (some ln)
          (some "right")).comments.map fun c => c.content) = [content] ∧
      (createCommentThreadEcho newId content (some filePath) (some ln)
          (some "right")).threadContext =
        some { filePath := filePath,
               rightFileStart := some { line := ln, offset := 1 },
               rightFileEnd := some { line := ln, offset := 1 },
               leftFileStart := none, leftFileEnd := none }) ∧
    (∀ newId content filePath ln,
      (createCommentThreadEcho newId content (some filePath) (some ln) (some "left")).status
          = "active" ∧
      ((createCommentThreadEcho newId content (some filePath) (some ln)
          (some "left")).comments.map fun c => c.content) = [content] ∧
      (createCommentThreadEcho newId content (some filePath) (some ln)
          (some "left")).threadContext =
        some { filePath := filePath,
               rightFileStart := none, rightFileEnd := none,
               leftFileStart := some { line := ln, offset := 1 },
               leftFileEnd := some { line := ln, offset := 1 } }) := by
  refine ⟨by decide, by decide, by decide, by decide, ?_, ?_⟩ <;>
    intro newId content filePath ln <;>
    exact ⟨rfl, rfl, rfl⟩

/-! ## Claim C6 -/

/-- C6: for changeType add the base-side fetch is never attempted and
the original content is empty regardless of the base oracle; for
changeType delete the modified-side fetch is never attempted; a failing
fetch on either side leaves that side of the returned FileDiff as the
empty string while the FileDiff is still produced with the given path
and change type. -/
theorem c6_file_diff_sides :
    (∀ fp fb ft, "base" ∉ (getFileDiff fp "add" fb ft).2 ∧
      (getFileDiff fp "add" fb ft).1.originalContent = "") ∧
    (∀ fp fb ft, "target" ∉ (getFileDiff fp "delete" fb ft).2) ∧
    (∀ fp ct e ft, (getFileDiff fp ct (Except.error e) ft).1.originalContent = "" ∧
      (getFileDiff fp ct (Except.error e) ft).1.path = fp ∧
      (getFileDiff fp ct (Except.error e) ft).1.changeType = ct) ∧
    (∀ fp ct fb e, (getFileDiff fp ct fb (Except.error e)).1.modifiedContent = "" ∧
      (getFileDiff fp ct fb (Except.error e)).1.path = fp ∧
      (getFileDiff fp ct fb (Except.error e)).1.changeType = ct) := by
  refine ⟨?_, ?_, ?_, ?_⟩
  · intro fp fb ft
    cases fb <;> cases ft <;> simp [getFileDiff]
  · intro fp fb ft
    cases fb <;> cases ft <;> simp [getFileDiff]
  · intro fp ct e ft
    unfold getFileDiff
    by_cases h : ct = "add" <;> simp [h]
  · intro fp ct fb e
    unfold getFileDiff
    by_cases h : ct = "delete" <;> simp [h]

/-! ## Claims C3 and C9: local thread-set updates -/

lemma updateFirstById_not_found (threads : List CommentThread) (threadId : Nat)
    (f : CommentThread → CommentThread) (h : ∀ t ∈ threads, t.id ≠ threadId) :
    updateFirstById threads threadId f = threads := by
  induction threads with
  | nil => rfl
  | cons t ts ih =>
    unfold updateFirstById
    rw [if_neg (h t (List.mem_cons_self t ts))]
    rw [ih (fun u hu => h u (List.mem_cons_of_mem t hu))]

lemma updateFirstById_found (pre post : List CommentThread) (t : CommentThread)
    (threadId : Nat) (f : CommentThread → CommentThread)
    (ht : t.id = threadId) (hpre : ∀ u ∈ pre, u.id ≠ threadId) :
    updateFirstById (pre ++ t :: post) threadId f = pre ++ f t :: post := by
  induction pre with
  | nil => simp [updateFirstById, ht]
  | cons p ps ih =>
    simp only [List.cons_append, updateFirstById]
    rw [if_neg (hpre p (List.mem_cons_self p ps))]
    exact congrArg (List.cons p) (ih (fun u hu => hpre u (List.mem_cons_of_mem p hu)))

/-- C3: from a local set in which the first thread with the given id is
t, running the updateCommentStatus success path with wontFix and then
with active leaves the set with exactly that thread carrying status
active, all other threads untouched; the remote operation invoked for
each change is updateCommentThreadStatusModel, the Remote Client call
the core issues per change. -/
theorem c3_status_update_sequence (pre post : List CommentThread) (t : CommentThread)
    (threadId : Nat) (ht : t.id = threadId) (hpre : ∀ u ∈ pre, u.id ≠ threadId) :
    (applyUpdateCommentStatus
        ((applyUpdateCommentStatus (pre ++ t :: post) threadId "wontFix").1)
        threadId "active").1 =
      pre ++ { t with status := "active" } :: post := by
  have h1 : (applyUpdateCommentStatus (pre ++ t :: post) threadId "wontFix").1 =
      pre ++ { t with status := "wontFix" } :: post := by
    simp [applyUpdateCommentStatus, updateCommentThreadStatusModel,
      updateFirstById_found pre post t threadId _ ht hpre]
  rw [h1]
  have ht2 : ({ t with status := "wontFix" } : CommentThread).id = threadId := ht
  simp [applyUpdateCommentStatus, updateCommentThreadStatusModel,
    updateFirstById_found pre post _ threadId _ ht2 hpre]

/-- C3 witness: a concrete one-thread set moved to wontFix and then to
active ends with status active. -/
theorem c3_status_update_sequence_witness :
    (applyUpdateCommentStatus
        ((applyUpdateCommentStatus
            [{ id := 3, status := "active", comments := [], threadContext := none,
               isDeleted := false, publishedDate := "", lastUpdatedDate := "" }]
            3 "wontFix").1)
        3 "active").1 =
      [{ id := 3, status := "active", comments := [], threadContext := none,
         isDeleted := false, publishedDate := "", lastUpdatedDate := "" }] :=
  c3_status_update_sequence [] []
    { id := 3, status := "active", comments := [], threadContext := none,
      isDeleted := false, publishedDate := "", lastUpdatedDate := "" }
    3 rfl (by simp)

/-- C9: on the reply success path, if no locally stored thread has the
given id then the thread set is returned unchanged while the
replyCreated message carrying the comment is still posted; if the first
thread with the given id is t, the comment is appended to exactly that
thread and every other thread is unchanged. -/
theorem c9_reply_frame :
    (∀ (threads : List CommentThread) (threadId : Nat) (c : PRComment),
      (∀ t ∈ threads, t.id ≠ threadId) →
      applyReplySuccess threads threadId c =
        (threads, WebviewMessage.replyCreated threadId c)) ∧
    (∀ (pre post : List CommentThread) (t : CommentThread) (threadId : Nat) (c : PRComment),
      t.id = threadId → (∀ u ∈ pre, u.id ≠ threadId) →
      applyReplySuccess (pre ++ t :: post) threadId c =
        (pre ++ { t with comments := t.comments ++ [c] } :: post,
         WebviewMessage.replyCreated threadId c)) := by
  constructor
  · intro threads threadId c h
    simp [applyReplySuccess, updateFirstById_not_found threads threadId _ h]
  · intro pre post t threadId c ht hpre
    simp [applyReplySuccess, updateFirstById_found pre post t threadId _ ht hpre]

/-- C9 witness: with a one-thread local set, replying to an absent id
leaves the set unchanged while the reply event still carries the
comment, and replying to the present id appends the comment to that
thread. -/
theorem c9_reply_frame_witness :
    applyReplySuccess
        [{ id := 1, status := "active", comments := [], threadContext := none,
           isDeleted := false, publishedDate := "", lastUpdatedDate := "" }]
        2
        { id := 9, content := "hi", author := { displayName := "", uniqueName := "" },
          publishedDate := "", lastUpdatedDate := "", isDeleted := false,
          commentType := "text" } =
      ([{ id := 1, status := "active", comments := [], threadContext := none,
          isDeleted := false, publishedDate := "", lastUpdatedDate := "" }],
       WebviewMessage.replyCreated 2
         { id := 9, content := "hi", author := { displayName := "", uniqueName := "" },
           publishedDate := "", lastUpdatedDate := "", isDeleted := false,
           commentType := "text" }) ∧
    applyReplySuccess
        [{ id := 1, status := "active", comments := [], threadContext := none,
           isDeleted := false, publishedDate := "", lastUpdatedDate := "" }]
        1
        { id := 9, content := "hi", author := { displayName := "", uniqueName := "" },
          publishedDate := "", lastUpdatedDate := "", isDeleted := false,
          commentType := "text" } =
      ([{ id := 1, status := "active",
          comments := [{ id := 9, content := "hi",
                         author := { displayName := "", uniqueName := "" },
                         publishedDate := "", lastUpdatedDate := "", isDeleted := false,
                         commentType := "text" }],
          threadContext := none,
          isDeleted := false, publishedDate := "", lastUpdatedDate := "" }],
       WebviewMessage.replyCreated 1
         { id := 9, content := "hi", author := { displayName := "", uniqueName := "" },
           publishedDate := "", lastUpdatedDate := "", isDeleted := false,
           commentType := "text" }) :=
  ⟨c9_reply_frame.1 _ 2 _ (by decide),
   c9_reply_frame.2 [] []
     { id := 1, status := "active", comments := [], threadContext := none,
       isDeleted := false, publishedDate := "", lastUpdatedDate := "" }
     1 _ rfl (by simp)⟩

/-! ## Claim C5 -/

/-- C5 counterexample: the claim is an iff requiring only that some
comment be non-system-typed.  The probe thread has no threadContext, is
not deleted, and its single comment is text-typed (hence non-system),
yet getGeneralThreads excludes it because that comment is itself
deleted: the code additionally requires a non-deleted non-system
comment. -/
theorem c5_general_filter_counterexample :
    generalProbeThread.threadContext = none ∧
    generalProbeThread.isDeleted = false ∧
    (∃ c ∈ generalProbeThread.comments, c.commentType ≠ "system") ∧
    getGeneralThreads [generalProbeThread] = [] := by
  decide

/-- C5 amended: a thread is in the general-comments list iff it has no
threadContext, its isDeleted flag is false, and it contains at least
one comment that is itself not deleted and whose commentType is not
system.  In particular a system-only thread is excluded and a thread
whose single comment is a non-deleted text comment is included. -/
theorem c5_general_filter_amended (t : CommentThread) (threads : List CommentThread) :
    t ∈ getGeneralThreads threads ↔
      t ∈ threads ∧ t.threadContext = none ∧ t.isDeleted = false ∧
        ∃ c ∈ t.comments, c.isDeleted = false ∧ c.commentType ≠ "system" := by
  simp only [getGeneralThreads, List.mem_filter, Bool.and_eq_true, List.any_eq_true,
    Option.isNone_iff_eq_none, Bool.not_eq_true', bne_iff_ne, ne_eq, and_assoc]

/-! ## Claim C7 -/

/-- C7: flushing a run of deleted lines against a run of added lines
produces exactly max(deletedCount, addedCount) rows; row i draws its
left cell from deleted[i] (type deleted, the content and
original number) and its right cell from added[i] (type added, that
content and modified number of added[i]); whenever one side is exhausted
the cell of that side is the empty placeholder: empty content, empty line
number, type empty. -/
theorem c7_flush_rows (leftLines rightLines : List DiffLine) :
    (flushSideBySideChanges leftLines rightLines).length
        = max leftLines.length rightLines.length ∧
    ∀ i, i < max leftLines.length rightLines.length →
      ((i < leftLines.length →
        ((flushSideBySideChanges leftLines rightLines).getD i
            ⟨none, "", "", none, "", ""⟩).leftType = "deleted" ∧
        ((flushSideBySideChanges leftLines rightLines).getD i
            ⟨none, "", "", none, "", ""⟩).leftContent
          = (leftLines.getD i ⟨"", "", none, none⟩).line ∧
        ((flushSideBySideChanges leftLines rightLines).getD i
            ⟨none, "", "", none, "", ""⟩).leftNumber
          = jsNumberOrEmpty (leftLines.getD i ⟨"", "", none, none⟩).oLine) ∧
       (leftLines.length ≤ i →
        ((flushSideBySideChanges leftLines rightLines).getD i
            ⟨none, "", "", none, "", ""⟩).leftType = "empty" ∧
        ((flushSideBySideChanges leftLines rightLines).getD i
            ⟨none, "", "", none, "", ""⟩).leftContent = "" ∧
        ((flushSideBySideChanges leftLines rightLines).getD i
            ⟨none, "", "", none, "", ""⟩).leftNumber = none) ∧
       (i < rightLines.length →
        ((flushSideBySideChanges leftLines rightLines).getD i
            ⟨none, "", "", none, "", ""⟩).rightType = "added" ∧
        ((flushSideBySideChanges leftLines rightLines).getD i
            ⟨none, "", "", none, "", ""⟩).rightContent
          = (rightLines.getD i ⟨"", "", none, none⟩).line ∧
        ((flushSideBySideChanges leftLines rightLines).getD i
            ⟨none, "", "", none, "", ""⟩).rightNumber
          = jsNumberOrEmpty (rightLines.getD i ⟨"", "", none, none⟩).mLine) ∧
       (rightLines.length ≤ i →
        ((flushSideBySideChanges leftLines rightLines).getD i
            ⟨none, "", "", none, "", ""⟩).rightType = "empty" ∧
        ((flushSideBySideChanges leftLines rightLines).getD i
            ⟨none, "", "", none, "", ""⟩).rightContent = "" ∧
        ((flushSideBySideChanges leftLines rightLines).getD i
            ⟨none, "", "", none, "", ""⟩).rightNumber = none)) := by
  constructor
  · simp [flushSideBySideChanges]
  · intro i hi
    have hlen : i < (flushSideBySideChanges leftLines rightLines).length := by
      simpa [flushSideBySideChanges] using hi
    have hrow : (flushSideBySideChanges leftLines rightLines).getD i
        ⟨none, "", "", none, "", ""⟩ =
        { leftNumber := jsNumberOrEmpty (leftLines[i]?.bind (fun l => l.oLine))
          leftContent := (leftLines[i]?.map (fun l => l.line)).getD ""
          leftType := if leftLines[i]?.isSome then "deleted" else "empty"
          rightNumber := jsNumberOrEmpty (rightLines[i]?.bind (fun l => l.mLine))
          rightContent := (rightLines[i]?.map (fun l => l.line)).getD ""
          rightType := if rightLines[i]?.isSome then "added" else "empty" } := by
      rw [List.getD_eq_getElem _ _ hlen]
      simp [flushSideBySideChanges]
    refine ⟨fun hl => ?_, fun hl => ?_, fun hr => ?_, fun hr => ?_⟩
    · have hsome : leftLines[i]? = some leftLines[i] := List.getElem?_eq_getElem hl
      rw [hrow]
      simp [hsome, List.getD_eq_getElem _ _ hl]
    · have hnone : leftLines[i]? = none := List.getElem?_eq_none hl
      rw [hrow]
      simp [hnone, jsNumberOrEmpty]
    · have hsome : rightLines[i]? = some rightLines[i] := List.getElem?_eq_getElem hr
      rw [hrow]
      simp [hsome, List.getD_eq_getElem _ _ hr]
    · have hnone : rightLines[i]? = none := List.getElem?_eq_none hr
      rw [hrow]
      simp [hnone, jsNumberOrEmpty]

/-- C7 witness: one deleted line zipped against two added lines gives
two rows; row 0 pairs the deleted line with the first added line and
row 1 pads the left side with the empty placeholder. -/
theorem c7_flush_rows_witness :
    (flushSideBySideChanges
        [{ line := "old", lineType := "deleted", oLine := some 4 }]
        [{ line := "new1", lineType := "added", mLine := some 4 },
         { line := "new2", lineType := "added", mLine := some 5 }]).length = 2 ∧
    ((flushSideBySideChanges
        [{ line := "old", lineType := "deleted", oLine := some 4 }]
        [{ line := "new1", lineType := "added", mLine := some 4 },
         { line := "new2", lineType := "added", mLine := some 5 }]).getD 1
        ⟨none, "", "", none, "", ""⟩).leftType = "empty" ∧
    ((flushSideBySideChanges
        [{ line := "old", lineType := "deleted", oLine := some 4 }]
        [{ line := "new1", lineType := "added", mLine := some 4 },
         { line := "new2", lineType := "added", mLine := some 5 }]).getD 1
        ⟨none, "", "", none, "", ""⟩).leftContent = "" ∧
    ((flushSideBySideChanges
        [{ line := "old", lineType := "deleted", oLine := some 4 }]
        [{ line := "new1", lineType := "added", mLine := some 4 },
         { line := "new2", lineType := "added", mLine := some 5 }]).getD 0
        ⟨none, "", "", none, "", ""⟩).leftContent = "old" := by
  have h := c7_flush_rows
      [{ line := "old", lineType := "deleted", oLine := some 4 }]
      [{ line := "new1", lineType := "added", mLine := some 4 },
       { line := "new2", lineType := "added", mLine := some 5 }]
  refine ⟨h.1, ((h.2 1 (by decide)).2.1 (by decide)).1,
    ((h.2 1 (by decide)).2.1 (by decide)).2.1, ?_⟩
  have h0 := ((h.2 0 (by decide)).1 (by decide)).2.1
  simpa using h0

/-! ## Equation lemmas for diffAt -/

lemma diffAt_both (B T : List String) (n i : Nat) (bl tl : String)
    (hB : B[i]? = some bl) (hT : T[i]? = some tl) :
    diffAt B T n i =
      if bl = tl then
        if i < 3 ∨ n - 3 ≤ i then
          [{ line := bl, lineType := "unchanged", oLine := some (i + 1), mLine := some (i + 1) }]
        else []
      else
        [{ line := bl, lineType := "deleted", oLine := some (i + 1) },
         { line := tl, lineType := "added", mLine := some (i + 1) }] := by
  unfold diffAt
  rw [hB, hT]

lemma diffAt_left (B T : List String) (n i : Nat) (bl : String)
    (hB : B[i]? = some bl) (hT : T[i]? = none) :
    diffAt B T n i = [{ line := bl, lineType := "deleted", oLine := some (i + 1) }] := by
  unfold diffAt
  rw [hB, hT]

lemma diffAt_right (B T : List String) (n i : Nat) (tl : String)
    (hB : B[i]? = none) (hT : T[i]? = some tl) :
    diffAt B T n i = [{ line := tl, lineType := "added", mLine := some (i + 1) }] := by
  unfold diffAt
  rw [hB, hT]

lemma diffAt_none (B T : List String) (n i : Nat)
    (hB : B[i]? = none) (hT : T[i]? = none) :
    diffAt B T n i = [] := by
  unfold diffAt
  rw [hB, hT]

/-! ## Claim C8 -/

/-- C8: every DiffLine emitted by the diff engine carries exactly the
line numbers its classification prescribes: unchanged entries carry
both numbers, equal and of the 1-based form i+1 for the walk index i;
added entries carry only the modified-side number; deleted entries
carry only the original-side number. -/
theorem c8_line_number_fields (b t : String) (dl : DiffLine)
    (hmem : dl ∈ generateDiff b t) :
    (dl.lineType = "unchanged" →
      ∃ i, dl.oLine = some (i + 1) ∧ dl.mLine = some (i + 1)) ∧
    (dl.lineType = "added" → dl.oLine = none ∧ ∃ i, dl.mLine = some (i + 1)) ∧
    (dl.lineType = "deleted" → dl.mLine = none ∧ ∃ i, dl.oLine = some (i + 1)) := by
  simp only [generateDiff, List.mem_flatMap, List.mem_range] at hmem
  obtain ⟨i, hi, hdl⟩ := hmem
  cases hB : (splitLines b)[i]? with
  | none =>
    cases hT : (splitLines t)[i]? with
    | none =>
      rw [diffAt_none _ _ _ _ hB hT] at hdl
      exact absurd hdl (List.not_mem_nil dl)
    | some tl =>
      rw [diffAt_right _ _ _ _ _ hB hT, List.mem_singleton] at hdl
      subst hdl
      refine ⟨fun h => by simp at h, fun h => ⟨rfl, i, rfl⟩, fun h => by simp at h⟩
  | some bl =>
    cases hT : (splitLines t)[i]? with
    | none =>
      rw [diffAt_left _ _ _ _ _ hB hT, List.mem_singleton] at hdl
      subst hdl
      refine ⟨fun h => by simp at h, fun h => by simp at h, fun h => ⟨rfl, i, rfl⟩⟩
    | some tl =>
      rw [diffAt_both _ _ _ _ _ _ hB hT] at hdl
      split_ifs at hdl with hbt hwin
      · rw [List.mem_singleton] at hdl
        subst hdl
        refine ⟨fun h => ⟨i, rfl, rfl⟩, fun h => by simp at h, fun h => by simp at h⟩
      · exact absurd hdl (List.not_mem_nil dl)
      · rw [List.mem_cons, List.mem_singleton] at hdl
        rcases hdl with hdl | hdl <;> subst hdl
        · refine ⟨fun h => by simp at h, fun h => by simp at h, fun h => ⟨rfl, i, rfl⟩⟩
        · refine ⟨fun h => by simp at h, fun h => ⟨rfl, i, rfl⟩, fun h => by simp at h⟩

/-- C8 witness: for base "a" and modified "b" the emitted deleted entry
carries only the original-side number 1, by the theorem applied at that
entry. -/
theorem c8_line_number_fields_witness :
    ({ line := "a", lineType := "deleted", oLine := some 1 } : DiffLine).mLine = none ∧
    ∃ i, ({ line := "a", lineType := "deleted", oLine := some 1 } : DiffLine).oLine
        = some (i + 1) :=
  (c8_line_number_fields "a" "b"
      { line := "a", lineType := "deleted", oLine := some 1 }
      (by decide)).2.2 rfl

/-! ## Claim C4 -/

lemma diffAt_countP_deleted (B T : List String) (n i : Nat)
    (hne : i < B.length → i < T.length → B.getD i "" ≠ T.getD i "") :
    (diffAt B T n i).countP (fun l => l.lineType == "deleted") =
      if i < B.length then 1 else 0 := by
  by_cases hb : i < B.length <;> by_cases ht : i < T.length
  · have hne2 : B[i] ≠ T[i] := by
      have := hne hb ht
      rwa [List.getD_eq_getElem _ _ hb, List.getD_eq_getElem _ _ ht] at this
    rw [diffAt_both B T n i _ _ (List.getElem?_eq_getElem hb) (List.getElem?_eq_getElem ht),
      if_neg hne2]
    simp [hb]
  · rw [diffAt_left B T n i _ (List.getElem?_eq_getElem hb)
      (List.getElem?_eq_none (le_of_not_lt ht))]
    simp [hb]
  · rw [diffAt_right B T n i _ (List.getElem?_eq_none (le_of_not_lt hb))
      (List.getElem?_eq_getElem ht)]
    simp [hb]
  · rw [diffAt_none B T n i (List.getElem?_eq_none (le_of_not_lt hb))
      (List.getElem?_eq_none (le_of_not_lt ht))]
    simp [hb]

lemma diffAt_countP_added (B T : List String) (n i : Nat)
    (hne : i < B.length → i < T.length → B.getD i "" ≠ T.getD i "") :
    (diffAt B T n i).countP (fun l => l.lineType == "added") =
      if i < T.length then 1 else 0 := by
  by_cases hb : i < B.length <;> by_cases ht : i < T.length
  · have hne2 : B[i] ≠ T[i] := by
      have := hne hb ht
      rwa [List.getD_eq_getElem _ _ hb, List.getD_eq_getElem _ _ ht] at this
    rw [diffAt_both B T n i _ _ (List.getElem?_eq_getElem hb) (List.getElem?_eq_getElem ht),
      if_neg hne2]
    simp [ht]
  · rw [diffAt_left B T n i _ (List.getElem?_eq_getElem hb)
      (List.getElem?_eq_none (le_of_not_lt ht))]
    simp [ht]
  · rw [diffAt_right B T n i _ (List.getElem?_eq_none (le_of_not_lt hb))
      (List.getElem?_eq_getElem ht)]
    simp [ht]
  · rw [diffAt_none B T n i (List.getElem?_eq_none (le_of_not_lt hb))
      (List.getElem?_eq_none (le_of_not_lt ht))]
    simp [ht]

/-- C4: first, for texts splitting into identical line lists the diff
engine emits exactly the unchanged entries whose walk index lies in the
first-3 or last-3 context window (interior identical lines are
omitted); second, for texts whose line lists disagree at every common
index the engine emits exactly one deleted entry per base line and one
added entry per modified line. -/
theorem c4_identical_and_disjoint :
    (∀ b t : String, splitLines b = splitLines t →
      generateDiff b t =
        (List.range (splitLines b).length).filterMap (fun i =>
          if i < 3 ∨ (splitLines b).length - 3 ≤ i then
            some { line := (splitLines b).getD i "", lineType := "unchanged",
                   oLine := some (i + 1), mLine := some (i + 1) }
          else none)) ∧
    (∀ b t : String,
      (∀ i, i < (splitLines b).length → i < (splitLines t).length →
        (splitLines b).getD i "" ≠ (splitLines t).getD i "") →
      (generateDiff b t).countP (fun l => l.lineType == "deleted")
          = (splitLines b).length ∧
      (generateDiff b t).countP (fun l => l.lineType == "added")
          = (splitLines t).length) := by
  constructor
  · intro b t h
    unfold generateDiff
    rw [← h]
    simp only [Nat.max_self]
    apply flatMap_eq_filterMap
    intro i hi
    have hlt : i < (splitLines b).length := List.mem_range.mp hi
    rw [diffAt_both _ _ _ _ _ _ (List.getElem?_eq_getElem hlt) (List.getElem?_eq_getElem hlt),
      if_pos rfl, List.getD_eq_getElem _ _ hlt]
    by_cases hw : i < 3 ∨ (splitLines b).length - 3 ≤ i
    · rw [if_pos hw, if_pos hw]
      rfl
    · rw [if_neg hw, if_neg hw]
      rfl
  · intro b t h
    constructor
    · unfold generateDiff
      rw [countP_flatMap]
      rw [List.map_congr_left (fun i _ => diffAt_countP_deleted (splitLines b)
        (splitLines t) (max (splitLines b).length (splitLines t).length) i (h i))]
      rw [sum_indicator_range]
      exact min_eq_left (Nat.le_max_left _ _)
    · unfold generateDiff
      rw [countP_flatMap]
      rw [List.map_congr_left (fun i _ => diffAt_countP_added (splitLines b)
        (splitLines t) (max (splitLines b).length (splitLines t).length) i (h i))]
      rw [sum_indicator_range]
      exact min_eq_left (Nat.le_max_right _ _)

/-- C4 witness: a seven-line text diffed against itself keeps only the
first and last three lines as unchanged entries (index 3 is omitted),
and the fully disjoint pair "a\nb" versus "c" produces 2 deleted and
1 added entries. -/
theorem c4_identical_and_disjoint_witness :
    generateDiff "l0\nl1\nl2\nl3\nl4\nl5\nl6" "l0\nl1\nl2\nl3\nl4\nl5\nl6" =
      (List.range (splitLines "l0\nl1\nl2\nl3\nl4\nl5\nl6").length).filterMap (fun i =>
        if i < 3 ∨ (splitLines "l0\nl1\nl2\nl3\nl4\nl5\nl6").length - 3 ≤ i then
          some { line := (splitLines "l0\nl1\nl2\nl3\nl4\nl5\nl6").getD i "",
                 lineType := "unchanged", oLine := some (i + 1), mLine := some (i + 1) }
        else none) ∧
    (generateDiff "a\nb" "c").countP (fun l => l.lineType == "deleted") =
      (splitLines "a\nb").length ∧
    (generateDiff "a\nb" "c").countP (fun l => l.lineType == "added") =
      (splitLines "c").length :=
  ⟨c4_identical_and_disjoint.1 "l0\nl1\nl2\nl3\nl4\nl5\nl6" "l0\nl1\nl2\nl3\nl4\nl5\nl6" rfl,
   c4_identical_and_disjoint.2 "a\nb" "c" (by decide)⟩

/-! ## Claim C10 -/

lemma diffAt_filterMap_oLine (B T : List String) (n i : Nat) :
    (diffAt B T n i).filterMap (fun l => l.oLine) = [] ∨
    (diffAt B T n i).filterMap (fun l => l.oLine) = [i + 1] := by
  by_cases hb : i < B.length <;> by_cases ht : i < T.length
  · rw [diffAt_both B T n i _ _ (List.getElem?_eq_getElem hb) (List.getElem?_eq_getElem ht)]
    split_ifs
    · right; rfl
    · left; rfl
    · right; rfl
  · rw [diffAt_left B T n i _ (List.getElem?_eq_getElem hb)
      (List.getElem?_eq_none (le_of_not_lt ht))]
    right; rfl
  · rw [diffAt_right B T n i _ (List.getElem?_eq_none (le_of_not_lt hb))
      (List.getElem?_eq_getElem ht)]
    left; rfl
  · rw [diffAt_none B T n i (List.getElem?_eq_none (le_of_not_lt hb))
      (List.getElem?_eq_none (le_of_not_lt ht))]
    left; rfl

lemma diffAt_filterMap_mLine (B T : List String) (n i : Nat) :
    (diffAt B T n i).filterMap (fun l => l.mLine) = [] ∨
    (diffAt B T n i).filterMap (fun l => l.mLine) = [i + 1] := by
  by_cases hb : i < B.length <;> by_cases ht : i < T.length
  · rw [diffAt_both B T n i _ _ (List.getElem?_eq_getElem hb) (List.getElem?_eq_getElem ht)]
    split_ifs
    · right; rfl
    · left; rfl
    · right; rfl
  · rw [diffAt_left B T n i _ (List.getElem?_eq_getElem hb)
      (List.getElem?_eq_none (le_of_not_lt ht))]
    left; rfl
  · rw [diffAt_right B T n i _ (List.getElem?_eq_none (le_of_not_lt hb))
      (List.getElem?_eq_getElem ht)]
    right; rfl
  · rw [diffAt_none B T n i (List.getElem?_eq_none (le_of_not_lt hb))
      (List.getElem?_eq_none (le_of_not_lt ht))]
    left; rfl

lemma pairwise_chunks (h : Nat → List Nat)
    (H : ∀ i, h i = [] ∨ h i = [i + 1]) (n : Nat) :
    List.Pairwise (· < ·) ((List.range n).flatMap h) ∧
      ∀ v ∈ (List.range n).flatMap h, v ≤ n := by
  induction n with
  | zero => simp
  | succ n ih =>
    rw [List.range_succ, List.flatMap_append]
    constructor
    · rw [List.pairwise_append]
      refine ⟨ih.1, ?_, ?_⟩
      · rcases H n with h0 | h0 <;> simp [List.flatMap_cons, List.flatMap_nil, h0]
      · intro a ha v hv
        have han : a ≤ n := ih.2 a ha
        have hvn : v ∈ h n := by simpa [List.flatMap_cons, List.flatMap_nil] using hv
        rcases H n with h0 | h0
        · rw [h0] at hvn
          exact absurd hvn (List.not_mem_nil v)
        · rw [h0, List.mem_singleton] at hvn
          omega
    · intro v hv
      rcases List.mem_append.mp hv with hv | hv
      · exact Nat.le_succ_of_le (ih.2 v hv)
      · have hvn : v ∈ h n := by simpa [List.flatMap_cons, List.flatMap_nil] using hv
        rcases H n with h0 | h0
        · rw [h0] at hvn
          exact absurd hvn (List.not_mem_nil v)
        · rw [h0, List.mem_singleton] at hvn
          omega

lemma generateDiff_oLine_position (b t : String) (dl : DiffLine)
    (hmem : dl ∈ generateDiff b t) (k : Nat) (hk : dl.oLine = some k) :
    1 ≤ k ∧ k ≤ (splitLines b).length ∧ dl.line = (splitLines b).getD (k - 1) "" := by
  simp only [generateDiff, List.mem_flatMap, List.mem_range] at hmem
  obtain ⟨i, hi, hdl⟩ := hmem
  cases hB : (splitLines b)[i]? with
  | none =>
    cases hT : (splitLines t)[i]? with
    | none =>
      rw [diffAt_none _ _ _ _ hB hT] at hdl
      exact absurd hdl (List.not_mem_nil dl)
    | some tl =>
      rw [diffAt_right _ _ _ _ _ hB hT, List.mem_singleton] at hdl
      subst hdl
      exact absurd hk (by simp)
  | some bl =>
    obtain ⟨hbl, hbeq⟩ := List.getElem?_eq_some.mp hB
    cases hT : (splitLines t)[i]? with
    | none =>
      rw [diffAt_left _ _ _ _ _ hB hT, List.mem_singleton] at hdl
      subst hdl
      obtain rfl : i + 1 = k := Option.some.inj hk
      refine ⟨by omega, by omega, ?_⟩
      simp only [Nat.add_sub_cancel]
      rw [List.getD_eq_getElem _ _ hbl]
      exact hbeq.symm
    | some tl =>
      rw [diffAt_both _ _ _ _ _ _ hB hT] at hdl
      split_ifs at hdl with hbt hwin
      · rw [List.mem_singleton] at hdl
        subst hdl
        obtain rfl : i + 1 = k := Option.some.inj hk
        refine ⟨by omega, by omega, ?_⟩
        simp only [Nat.add_sub_cancel]
        rw [List.getD_eq_getElem _ _ hbl]
        exact hbeq.symm
      · exact absurd hdl (List.not_mem_nil dl)
      · rw [List.mem_cons, List.mem_singleton] at hdl
        rcases hdl with rfl | rfl
        · obtain rfl : i + 1 = k := Option.some.inj hk
          refine ⟨by omega, by omega, ?_⟩
          simp only [Nat.add_sub_cancel]
          rw [List.getD_eq_getElem _ _ hbl]
          exact hbeq.symm
        · exact absurd hk (by simp)

lemma generateDiff_mLine_position (b t : String) (dl : DiffLine)
    (hmem : dl ∈ generateDiff b t) (k : Nat) (hk : dl.mLine = some k) :
    1 ≤ k ∧ k ≤ (splitLines t).length ∧ dl.line = (splitLines t).getD (k - 1) "" := by
  simp only [generateDiff, List.mem_flatMap, List.mem_range] at hmem
  obtain ⟨i, hi, hdl⟩ := hmem
  cases hB : (splitLines b)[i]? with
  | none =>
    cases hT : (splitLines t)[i]? with
    | none =>
      rw [diffAt_none _ _ _ _ hB hT] at hdl
      exact absurd hdl (List.not_mem_nil dl)
    | some tl =>
      obtain ⟨htl, hteq⟩ := List.getElem?_eq_some.mp hT
      rw [diffAt_right _ _ _ _ _ hB hT, List.mem_singleton] at hdl
      subst hdl
      obtain rfl : i + 1 = k := Option.some.inj hk
      refine ⟨by omega, by omega, ?_⟩
      simp only [Nat.add_sub_cancel]
      rw [List.getD_eq_getElem _ _ htl]
      exact hteq.symm
  | some bl =>
    cases hT : (splitLines t)[i]? with
    | none =>
      rw [diffAt_left _ _ _ _ _ hB hT, List.mem_singleton] at hdl
      subst hdl
      exact absurd hk (by simp)
    | some tl =>
      obtain ⟨htl, hteq⟩ := List.getElem?_eq_some.mp hT
      rw [diffAt_both _ _ _ _ _ _ hB hT] at hdl
      split_ifs at hdl with hbt hwin
      · rw [List.mem_singleton] at hdl
        subst hdl
        obtain rfl : i + 1 = k := Option.some.inj hk
        refine ⟨by omega, by omega, ?_⟩
        simp only [Nat.add_sub_cancel]
        rw [List.getD_eq_getElem _ _ htl, hbt]
        exact hteq.symm
      · exact absurd hdl (List.not_mem_nil dl)
      · rw [List.mem_cons, List.mem_singleton] at hdl
        rcases hdl with rfl | rfl
        · exact absurd hk (by simp)
        · obtain rfl : i + 1 = k := Option.some.inj hk
          refine ⟨by omega, by omega, ?_⟩
          simp only [Nat.add_sub_cancel]
          rw [List.getD_eq_getElem _ _ htl]
          exact hteq.symm

/-- C10: across the emitted sequence the original-side numbers (carried
exactly by deleted and unchanged entries) are strictly increasing, the
modified-side numbers (carried exactly by added and unchanged entries)
are strictly increasing, and every carried number k is the 1-based
position of the text of that entry in its respective input line list. -/
theorem c10_monotone_numbers (b t : String) :
    List.Pairwise (· < ·) ((generateDiff b t).filterMap (fun l => l.oLine)) ∧
    List.Pairwise (· < ·) ((generateDiff b t).filterMap (fun l => l.mLine)) ∧
    (∀ dl ∈ generateDiff b t, ∀ k, dl.oLine = some k →
      1 ≤ k ∧ k ≤ (splitLines b).length ∧ dl.line = (splitLines b).getD (k - 1) "") ∧
    (∀ dl ∈ generateDiff b t, ∀ k, dl.mLine = some k →
      1 ≤ k ∧ k ≤ (splitLines t).length ∧ dl.line = (splitLines t).getD (k - 1) "") := by
  refine ⟨?_, ?_, ?_, ?_⟩
  · show List.Pairwise (· < ·)
      (((List.range (max (splitLines b).length (splitLines t).length)).flatMap
        (diffAt (splitLines b) (splitLines t)
          (max (splitLines b).length (splitLines t).length))).filterMap (fun l => l.oLine))
    rw [filterMap_flatMap]
    exact (pairwise_chunks _
      (fun i => diffAt_filterMap_oLine (splitLines b) (splitLines t)
        (max (splitLines b).length (splitLines t).length) i) _).1
  · show List.Pairwise (· < ·)
      (((List.range (max (splitLines b).length (splitLines t).length)).flatMap
        (diffAt (splitLines b) (splitLines t)
          (max (splitLines b).length (splitLines t).length))).filterMap (fun l => l.mLine))
    rw [filterMap_flatMap]
    exact (pairwise_chunks _
      (fun i => diffAt_filterMap_mLine (splitLines b) (splitLines t)
        (max (splitLines b).length (splitLines t).length) i) _).1
  · exact fun dl hmem k hk => generateDiff_oLine_position b t dl hmem k hk
  · exact fun dl hmem k hk => generateDiff_mLine_position b t dl hmem k hk

/-- C10 witness: for base "a\nb" and modified "c" the unique added
entry carries modified number 1 and its text is line 1 of the modified
input, by the theorem applied at that entry. -/
theorem c10_monotone_numbers_witness :
    1 ≤ 1 ∧ 1 ≤ (splitLines "c").length ∧
      ({ line := "c", lineType := "added", mLine := some 1 } : DiffLine).line
        = (splitLines "c").getD 0 "" :=
  (c10_monotone_numbers "a\nb" "c").2.2.2
    { line := "c", lineType := "added", mLine := some 1 } (by decide) 1 rfl
